import Mathlib

/-!
Verification of the reView repository (map color-scale bounds, title
builder, and project configuration) against its natural-language
specification.  The definitions below are shallow embeddings of the
Python source in `reView/components/map.py`, `reView/utils/config.py`
and `reView/pages/scenario/element_builders.py`.  Values that Python
treats by truthiness (0, None, "" are falsy) are modelled explicitly.
-/

namespace ReView

/-! ## Python truthiness for optional numeric bounds -/

/-- Python truthiness of an optional numeric value: `None` and `0` are
falsy, every other number is truthy. -/
def pyTruthy (o : Option ℚ) : Bool :=
  match o with
  | none => false
  | some v => v != 0

/-- Python's `a or b` on optional numeric values: returns `a` when `a`
is truthy, else `b`. -/
def pyOrOpt (a b : Option ℚ) : Option ℚ :=
  if pyTruthy a then a else b

/-- `pandas.Series.max` over the plotted column: `none` on an empty
column (pandas returns NaN there). -/
def listMax (l : List ℚ) : Option ℚ :=
  l.foldl (fun acc x =>
    match acc with
    | none => some x
    | some m => some (max m x)) none

/-- `pandas.Series.min` over the plotted column. -/
def listMin (l : List ℚ) : Option ℚ :=
  l.foldl (fun acc x =>
    match acc with
    | none => some x
    | some m => some (min m x)) none

/-! ## Map bound state (components/map.py)

`Map.__init__` stores
`self._ymin = user_ymin or config.scales.get(y, {}).get("min")` and
`self._ymax = user_ymax or config.scales.get(y, {}).get("max")`;
the `ymax` / `ymin` properties then fall back to the data. -/

/-- The `_ymin` / `_ymax` attributes of a `Map` object. -/
structure MapBounds where
  _ymin : Option ℚ
  _ymax : Option ℚ
  deriving Repr, DecidableEq

namespace Map

/-- Lines 58-61 of `components/map.py`:
`self._ymin = user_ymin or config.scales.get(self._y, {}).get("min")`
and the analogous line for `_ymax`. -/
def initBounds (user_ymin user_ymax cfgMin cfgMax : Option ℚ) : MapBounds :=
  { _ymin := pyOrOpt user_ymin cfgMin
    _ymax := pyOrOpt user_ymax cfgMax }

/-- `Map.ymax` property (lines 279-285 of `components/map.py`):
`if self._ymin and not self._ymax: return self.df[self.y].max()`,
else `return self._ymax`.  `col` is the plotted column `df[self.y]`. -/
def ymax (m : MapBounds) (col : List ℚ) : Option ℚ :=
  if pyTruthy m._ymin && !pyTruthy m._ymax then listMax col
  else m._ymax

/-- `Map.ymin` property (lines 287-293 of `components/map.py`). -/
def ymin (m : MapBounds) (col : List ℚ) : Option ℚ :=
  if pyTruthy m._ymax && !pyTruthy m._ymin then listMin col
  else m._ymin

/-- Lines 428-442 of `pages/scenario/element_builders.py`
(`Map.unpack`): `self._ymin = scale.get("min")` then
`if self.uymin: self._ymin = self.uymin`, and the same for `_ymax`. -/
def unpackBounds (uymin uymax cfgMin cfgMax : Option ℚ) : MapBounds :=
  { _ymin := if pyTruthy uymin then uymin else cfgMin
    _ymax := if pyTruthy uymax then uymax else cfgMax }

end Map

/-! ## String helpers (Python semantics, over `List Char`)

Core `String` functions such as `String.toLower`, `String.splitOn` and
`String.replace` operate on byte positions and do not reduce in the
kernel, so the Python string operations used by the source are embedded
here directly over the character list of a string. -/

/-- Python `str.lower` (ASCII model). -/
def pyLower (s : String) : String := ⟨s.data.map Char.toLower⟩

/-- `List.isPrefixOf` for characters. -/
def listIsPrefixOf : List Char → List Char → Bool
  | [], _ => true
  | _ :: _, [] => false
  | a :: as, b :: bs => a == b && listIsPrefixOf as bs

/-- Is `pat` a contiguous infix of `l`? -/
def listIsInfixOf (pat : List Char) : List Char → Bool
  | [] => listIsPrefixOf pat []
  | c :: rest => listIsPrefixOf pat (c :: rest) || listIsInfixOf pat rest

/-- Python's `pat in s` substring test. -/
def pyIn (pat s : String) : Bool := listIsInfixOf pat.data s.data

/-- Python `str.endswith`. -/
def strEndsWith (s suf : String) : Bool :=
  listIsPrefixOf suf.data.reverse s.data.reverse

/-- Drop the last `n` characters of a string. -/
def strDropRight (s : String) (n : Nat) : String :=
  ⟨s.data.take (s.data.length - n)⟩

/-- Python `str.capitalize`: first character upper-cased, the rest
lower-cased. -/
def pyCapitalize (s : String) : String :=
  match s.data with
  | [] => ""
  | c :: rest => ⟨c.toUpper :: rest.map Char.toLower⟩

/-- Python `sep.join(xs)`. -/
def pyJoin (sep : String) : List String → String
  | [] => ""
  | [x] => x
  | x :: y :: rest => x ++ sep ++ pyJoin sep (y :: rest)

/-- Replacement of an empty pattern, Python style: the replacement is
inserted at every character boundary (`"ab".replace("", r) = r+a+r+b+r`). -/
def replaceEmptyPat (rep : List Char) (l : List Char) : List Char :=
  rep ++ l.foldr (fun c acc => c :: (rep ++ acc)) []

/-- Fuel-driven replacement of a non-empty pattern in a character
list; the fuel is always instantiated with the length of the list,
which suffices because each step consumes at least one character. -/
def replaceFuel (pat rep : List Char) : Nat → List Char → List Char
  | _, [] => []
  | 0, l => l
  | fuel + 1, c :: rest =>
    if listIsPrefixOf pat (c :: rest) then
      rep ++ replaceFuel pat rep fuel (List.drop pat.length (c :: rest))
    else
      c :: replaceFuel pat rep fuel rest

/-- Python `s.replace(pat, rep)` (all occurrences, left to right). -/
def pyReplace (s pat rep : String) : String :=
  match pat.data with
  | [] => ⟨replaceEmptyPat rep.data s.data⟩
  | _ :: _ => ⟨replaceFuel pat.data rep.data s.data.length s.data⟩

/-- Fuel-driven split of a character list on a non-empty separator. -/
def splitOnFuel (sep : List Char) : Nat → List Char → List Char → List (List Char)
  | _, [], acc => [acc.reverse]
  | 0, l, acc => [acc.reverse ++ l]
  | fuel + 1, c :: rest, acc =>
    if listIsPrefixOf sep (c :: rest) then
      acc.reverse :: splitOnFuel sep fuel (List.drop sep.length (c :: rest)) []
    else
      splitOnFuel sep fuel rest (c :: acc)

/-- Python `s.split(sep)` for a non-empty separator. -/
def pySplitOn (s sep : String) : List String :=
  match sep.data with
  | [] => [s]
  | _ :: _ => (splitOnFuel sep.data s.data.length s.data []).map (⟨·⟩)

/-- Split a character list on a predicate, keeping empty pieces. -/
def splitWhen (p : Char → Bool) : List Char → List (List Char)
  | [] => [[]]
  | c :: rest =>
    let r := splitWhen p rest
    if p c then [] :: r
    else
      match r with
      | [] => [[c]]
      | piece :: rs => (c :: piece) :: rs

/-- Python `s.split()` with no argument: split on whitespace runs,
discarding empty pieces. -/
def pySplitWs (s : String) : List String :=
  ((splitWhen Char.isWhitespace s.data).filter (· ≠ [])).map (⟨·⟩)

/-- Python `os.path.basename` (POSIX): everything after the last `/`. -/
def pyBasename (path : String) : String :=
  (pySplitOn path "/").getLast? |>.getD path

/-! ## Number rendering

Python renders the aggregate values with `"{:,}".format(x)` (thousands
separators) and `str` / `round`.  Exact float formatting is not
representable; the renderers below model it over exact rationals:
decimal digits of the integer part (comma-grouped where Python does),
a decimal point, and the fractional expansion. -/

/-- The character of a decimal digit. -/
def digitChar (n : Nat) : Char :=
  match n with
  | 0 => '0' | 1 => '1' | 2 => '2' | 3 => '3' | 4 => '4'
  | 5 => '5' | 6 => '6' | 7 => '7' | 8 => '8' | _ => '9'

/-- Decimal digits of a natural number, most significant first. -/
def natDigits (n : Nat) : List Char :=
  if _h : n < 10 then [digitChar n]
  else natDigits (n / 10) ++ [digitChar (n % 10)]
termination_by n
decreasing_by exact Nat.div_lt_self (by omega) (by omega)

/-- Insert a comma after every third digit, counting from the right
(input and output reversed). -/
def commaGroupAux : List Char → List Char
  | [] => []
  | [a] => [a]
  | [a, b] => [a, b]
  | [a, b, c] => [a, b, c]
  | a :: b :: c :: d :: rest => a :: b :: c :: ',' :: commaGroupAux (d :: rest)

/-- Thousands grouping of a digit list, as in Python's `{:,}` format. -/
def commaGroup (ds : List Char) : List Char :=
  (commaGroupAux ds.reverse).reverse

/-- Digits of the fractional expansion of `num / den`, stopping at a
zero remainder or when the fuel runs out. -/
def fracDigits : Nat → Nat → Nat → List Char
  | 0, _, _ => []
  | _ + 1, 0, _ => []
  | fuel + 1, num + 1, den =>
    digitChar ((num + 1) * 10 / den) :: fracDigits fuel ((num + 1) * 10 % den) den

/-- Render a rational the way Python prints the corresponding float:
optional sign, integer digits (comma-grouped when `commas` is true), a
decimal point, and the fractional digits (`3.0` for whole values). -/
def formatRat (commas : Bool) (q : ℚ) : String :=
  let n := q.num.natAbs
  let d := q.den
  let ipChars := if commas then commaGroup (natDigits (n / d)) else natDigits (n / d)
  let fr := fracDigits 20 (n % d) d
  let frChars := if fr.isEmpty then ['0'] else fr
  ⟨(if q < 0 then ['-'] else []) ++ ipChars ++ '.' :: frChars⟩

/-- `"{:,}".format(n)` for a natural number (the selected point count). -/
def formatNatC (n : Nat) : String := ⟨commaGroup (natDigits n)⟩

/-- Python's built-in `round(q, n)`: round half to even at `n` decimal
places. -/
def pyRound (q : ℚ) (n : Nat) : ℚ :=
  let m : ℚ := q * ((10 : ℚ) ^ n)
  let f : ℤ := ⌊m⌋
  let frac : ℚ := m - f
  let r : ℤ :=
    if frac < 1 / 2 then f
    else if 1 / 2 < frac then f + 1
    else if f % 2 = 0 then f else f + 1
  (r : ℚ) / ((10 : ℚ) ^ n)

/-- `f"{x:,.2f}"` used for the distance-to-load hover field: grouped
integer digits and exactly two fractional digits. -/
def formatFixed2 (q : ℚ) : String :=
  let r := pyRound q 2
  let n := r.num.natAbs
  let d := r.den
  ⟨(if r < 0 then ['-'] else []) ++ commaGroup (natDigits (n / d)) ++
    '.' :: [digitChar (n % d * 10 / d), digitChar (n % d * 10 % d * 10 / d)]⟩

/-! ## Title builder (`build_title` in components/map.py) -/

/-- Modelled from the spec: the difference/percentage unit options of a
variable name (`reView.utils.classes.DiffUnitOptions` is not under
`src/`; the spec describes variables carrying a difference suffix that
is either in original units or a percentage). -/
inductive DiffUnitOptions
  | original
  | percentage
  deriving Repr, DecidableEq, BEq

namespace DiffUnitOptions

/-- Modelled from the spec: the variable-name suffix of each option. -/
def suffix : DiffUnitOptions → String
  | original => "_diff"
  | percentage => "_diff_percent"

/-- Modelled from the spec: which difference option, if any, a variable
name carries. -/
def from_variable_name (name : String) : Option DiffUnitOptions :=
  if strEndsWith name percentage.suffix then some percentage
  else if strEndsWith name original.suffix then some original
  else none

/-- Modelled from the spec: strip the difference suffix, if any, from a
variable name. -/
def remove_from_variable_name (name : String) : String :=
  match from_variable_name name with
  | some opt => strDropRight name opt.suffix.data.length
  | none => name

end DiffUnitOptions

/-- Modelled from the spec: `build_name` (module
`reView.pages.scenario.model`, not under `src/`) infers the
human-readable scenario name from its file path: the file name with
the `_sc.csv` ending removed and underscore-separated words
capitalized, exactly the construction `build_title` itself applies to
`path2`. -/
def build_name (path : String) : String :=
  pyJoin " " ((pySplitOn (pyReplace (pyBasename path) "_sc.csv" "") "_").map pyCapitalize)

/-- Modelled from the spec: `convert_to_title`
(`reView.utils.functions`, not under `src/`) turns a variable name
into a title by replacing underscores with spaces and capitalizing the
words. -/
def convert_to_title (name : String) : String :=
  pyJoin " " ((pySplitOn name "_").map pyCapitalize)

/-- `infer_recalc` (lines 416-431 of `components/map.py`): quick title
fix for recalc least-cost paths.  Returns `none` where Python raises
`IndexError` (`title.split("  ")[1]` on a title without a double
space). -/
def infer_recalc (title : String) : Option String :=
  if pyIn "least" (pyLower title) then
    let t1 := pyJoin " " ((pySplitOn title " ").dropLast)
    if ["fcr", "capex", "opex", "losses"].any (fun v => pyIn v t1) then
      let t2 := pyReplace t1 "-" "."
      let parts := pySplitOn t2 "  "
      match parts with
      | firstPart :: secondPart :: _ =>
        let newParts := (pySplitWs secondPart).map (fun part =>
          let letters : String := ⟨part.data.filter Char.isAlpha⟩
          let numbers := pyReplace part letters ""
          letters ++ ": " ++ numbers)
        some (firstPart ++ " (" ++ pyJoin ", " newParts ++ ")")
      | _ => none
    else some t1
  else some title

/-- A recalculation table from the signal: per-scenario key/value
overrides (values modelled as strings, with `""` for a falsy value). -/
structure RecalcTable where
  scenario_a : List (String × String)
  scenario_b : List (String × String)
  deriving Repr, DecidableEq

/-- The signal dictionary
`{path, path2, x, y, project, recalc, recalc_table}` (the `x` and
`project` entries do not influence the title beyond selecting the
config, which is passed separately). -/
structure SignalDict where
  path : String
  path2 : String
  y : String
  recalc : String
  recalc_table : Option RecalcTable
  deriving Repr, DecidableEq

/-- A map/chart selection dictionary: its `"points"` list. -/
structure Selection where
  points : List Nat
  deriving Repr, DecidableEq

/-- The parts of the project `Config` consulted by `build_title`:
`config.units` and `config.titles` dictionaries. -/
structure BtConfig where
  units : List (String × String)
  titles : List (String × String)
  deriving Repr, DecidableEq

/-- Python `dict.get(key, default)` over an association list. -/
def lookupD (l : List (String × String)) (key default : String) : String :=
  match l.find? (fun kv => kv.1 == key) with
  | some kv => kv.2
  | none => default

/-- `recalc_table = None if recalc == "off" else signal_dict["recalc_table"]`
(lines 317-320). -/
def recalcTableOf (signal : SignalDict) : Option RecalcTable :=
  if signal.recalc == "off" then none else signal.recalc_table

/-- The `f"{k}: {v}"` messages of a recalc scenario dictionary, keeping
only truthy values (lines 327-331). -/
def recalcMsgs (entries : List (String × String)) : List String :=
  (entries.filter (fun kv => kv.2 ≠ "")).map (fun kv => kv.1 ++ ": " ++ kv.2)

/-- Lines 344-355 of `components/map.py`: select the aggregation
function and the title conditioner for a variable.  `aggs` is the
static `AGGREGATIONS` table (`reView.utils.constants`, not under
`src/`, passed as a parameter): a variable with an entry gets that
function and conditioner `"Average"` for `"mean"`, else `"Total"`;
a variable without an entry defaults to `("mean", "Average")`. -/
def aggSelect (aggs : String → Option String) (y_no_diff_suffix : String) :
    String × String :=
  match aggs y_no_diff_suffix with
  | some ag_fun => (ag_fun, if ag_fun == "mean" then "Average" else "Total")
  | none => ("mean", "Average")

/-- The scenario-name part `s1` of the title (lines 322-337): the name
built from `path`, with recalc-table messages appended when the recalc
table is active and the name is not a least-cost one, then passed
through `infer_recalc` for least-cost names.  `none` where
`infer_recalc` raises. -/
def s1_final (signal : SignalDict) : Option String :=
  let s1a := build_name signal.path
  let s1b :=
    match recalcTableOf signal with
    | some rt =>
      if !pyIn "least" (pyLower s1a) then
        let msgs := recalcMsgs rt.scenario_a
        if msgs ≠ [] then s1a ++ " (" ++ pyJoin ", " msgs ++ ")" else s1a
      else s1a
    | none => s1a
  if pyIn "least" (pyLower s1b) then infer_recalc s1b else some s1b

/-- The difference-mode title (lines 357-372): `s2` from `path2` with
recalc messages, then `"{s1} vs. <br>{s2}<br>" + title`. -/
def diffTitle (signal : SignalDict) (s1 ytitle : String) : String :=
  let s2a := pyJoin " " ((pySplitOn (pyReplace (pyBasename signal.path2) "_sc.csv" "") "_").map pyCapitalize)
  let s2 :=
    match recalcTableOf signal with
    | some rt =>
      let msgs := recalcMsgs rt.scenario_b
      if msgs ≠ [] then s2a ++ " (" ++ pyJoin ", " msgs ++ ")" else s2a
    | none => s2a
  s1 ++ " vs. <br>" ++ s2 ++ "<br>" ++ ytitle

/-- `sum` of a column. -/
def sumList (l : List ℚ) : ℚ := l.foldl (· + ·) 0

/-- `df[y].apply(ag_fun)` for an aggregation name (`"mean"` dispatches
to the mean and `"sum"` to the sum, as pandas does for the names
stored in `AGGREGATIONS`). -/
def applyAgg (ag_fun : String) (vals : List ℚ) : ℚ :=
  if ag_fun == "mean" then sumList vals / (vals.length : ℚ)
  else if ag_fun == "sum" then sumList vals
  else 0

/-- A dataframe column: numeric or string cells. -/
inductive ColData
  | nums (vals : List ℚ)
  | strs (vals : List String)
  deriving Repr, DecidableEq

/-- A dataframe: named columns of equal length (one row per point). -/
structure Df where
  cols : List (String × ColData)
  deriving Repr, DecidableEq

namespace Df

/-- Python `name in df`: column membership. -/
def hasCol (d : Df) (name : String) : Bool :=
  d.cols.any (fun kv => kv.1 == name)

/-- `df[name]`, `none` when Python raises `KeyError`. -/
def getCol (d : Df) (name : String) : Option ColData :=
  (d.cols.find? (fun kv => kv.1 == name)).map (·.2)

/-- `df[name]` as a numeric column (`none` when the column is missing
or holds strings, where the numeric operations of the source raise). -/
def getNumCol (d : Df) (name : String) : Option (List ℚ) :=
  match d.getCol name with
  | some (ColData.nums vals) => some vals
  | _ => none

/-- `df[name]` as a string column. -/
def getStrCol (d : Df) (name : String) : Option (List String) :=
  match d.getCol name with
  | some (ColData.strs vals) => some vals
  | _ => none

/-- `df[name] = col`: replace the column in place when it exists,
append it otherwise (pandas column assignment). -/
def setCol (d : Df) (name : String) (col : ColData) : Df :=
  if d.hasCol name then
    ⟨d.cols.map (fun kv => if kv.1 == name then (name, col) else kv)⟩
  else
    ⟨d.cols ++ [(name, col)]⟩

end Df

/-- The `"  |  {conditioner}: {ag}"` aggregate segment joined onto the
title with the print units (lines 393-394). -/
def mapTitleSegment (title1 conditioner2 : String) (ag : ℚ) (punits : List String) :
    String :=
  pyJoin " " ([title1, "  |  " ++ conditioner2 ++ ": " ++ formatRat true ag] ++ punits)

/-- The selected-point-count suffixes (lines 400-410). -/
def withSelections (t2 : String) (mapSelection chartSelection : Option Selection) :
    String :=
  let t3 :=
    match mapSelection with
    | none => t2
    | some sel =>
      t2 ++ "  |  " ++ ("Selected point count: " ++ formatNatC sel.points.length)
  match chartSelection with
  | none => t3
  | some sel =>
    t3 ++ "<br>" ++ ("Selected point count: " ++ formatNatC sel.points.length)

/-- The variable-title and aggregate part of `build_title` (lines
305-398 of `components/map.py`), given the already-built scenario name
`s1`: the base title `s1<br>{variable title}` (or the `vs.` form in
difference mode), extended with the aggregate segment when a dataframe
is present, the y variable exists and the units are not categorical.
Returns `none` where Python raises (missing or non-numeric column). -/
def titleStep2 (aggs : String → Option String) (cfg : BtConfig) (df : Option Df)
    (signal : SignalDict) (s1 : String) : Option String :=
  let y := signal.y
  let ynds := DiffUnitOptions.remove_from_variable_name y
  let diffOpt := DiffUnitOptions.from_variable_name y
  let units :=
    if diffOpt == some DiffUnitOptions.percentage then "%"
    else lookupD cfg.units ynds ""
  let ytitle := lookupD cfg.titles ynds (convert_to_title y)
  let ag_fun := (aggSelect aggs ynds).1
  let title1 :=
    if diffOpt.isSome then diffTitle signal s1 ytitle
    else s1 ++ "<br>" ++ ytitle
  let conditioner1 :=
    if diffOpt.isSome then units ++ " Difference | Average"
    else (aggSelect aggs ynds).2
  match df with
  | none => some title1
  | some d =>
    if (!(ynds == "") && !(pyLower ynds == "none")) && !(units == "category") then
      (d.getNumCol y).bind fun vals =>
        let branch :=
          if ynds == "capacity" && !(units == "%") then
            (pyRound (applyAgg ag_fun vals / 1000000) 4, ["TW"],
              pyReplace conditioner1 "Average" "Total")
          else
            (pyRound (applyAgg ag_fun vals) 2,
              if diffOpt.isSome then []
              else [lookupD cfg.units ynds ""],
              conditioner1)
        let t := mapTitleSegment title1 branch.2.2 branch.1 branch.2.1
        if d.hasCol "hydrogen_annual_kg" then
          (d.getNumCol "hydrogen_annual_kg").bind fun hv =>
            some (pyJoin " "
              [t, "  |  Total H2: " ++ formatRat true (pyRound (sumList hv) 2)])
        else some t
    else some title1

/-- `build_title` (lines 296-412 of `components/map.py`).  `aggs` is
the static `AGGREGATIONS` table and `cfg` the project config's `units`
and `titles` dictionaries; `df` is `None` or a dataframe; returns
`none` where the Python function raises (missing/non-numeric column,
`infer_recalc` failure). -/
def buildTitle (aggs : String → Option String) (cfg : BtConfig) (df : Option Df)
    (signal : SignalDict) (mapSelection chartSelection : Option Selection) :
    Option String :=
  (s1_final signal).bind fun s1 =>
    (titleStep2 aggs cfg df signal s1).bind fun t2 =>
      some (withSelections t2 mapSelection chartSelection)

/-- The 2x2 fallback table exactly as the spec's section 4 states it,
keyed on the user-supplied bounds alone (refinement comparison
definition, written from the spec's words, for the max bound): only a
min supplied ⇒ data max; only a max ⇒ that max; neither ⇒ the
config-declared bound; both ⇒ the user max. -/
def specYmaxTable (user_ymin user_ymax cfgMax : Option ℚ) (col : List ℚ) :
    Option ℚ :=
  match user_ymin, user_ymax with
  | some _, none => listMax col
  | none, some v => some v
  | none, none => cfgMax
  | some _, some v => some v

/-! ## Character-tracing infrastructure for the title claims

The `"Difference"` suffix contains a capital `D`, and apart from that
suffix no string literal of `build_title` does; so a title assembled
from `D`-free inputs in the non-difference path is `D`-free and hence
cannot contain `"Difference"`. -/

/-- No capital `D` occurs in the string. -/
def noD (s : String) : Prop := 'D' ∉ s.data

instance (s : String) : Decidable (noD s) := by unfold noD; infer_instance

theorem data_append (a b : String) : (a ++ b).data = a.data ++ b.data := rfl

theorem data_mk (l : List Char) : (String.mk l).data = l := rfl

theorem noD_append {a b : String} (ha : noD a) (hb : noD b) : noD (a ++ b) := by
  unfold noD at *
  rw [data_append]
  simp [List.mem_append]
  exact ⟨ha, hb⟩

theorem digitChar_ne_D (n : Nat) : digitChar n ≠ 'D' := by
  unfold digitChar; split <;> decide

theorem noD_natDigits (n : Nat) : 'D' ∉ natDigits n := by
  induction n using Nat.strong_induction_on with
  | _ n ih =>
    rw [natDigits]
    split
    · simp
      exact fun hh => digitChar_ne_D n hh.symm
    · simp [List.mem_append]
      refine ⟨fun hh => ?_, fun hh => digitChar_ne_D _ hh.symm⟩
      exact ih (n / 10) (Nat.div_lt_self (by omega) (by omega)) hh

theorem noD_commaGroupAux : ∀ {l : List Char}, 'D' ∉ l → 'D' ∉ commaGroupAux l
  | [], h => h
  | [_], h => h
  | [_, _], h => h
  | [_, _, _], h => h
  | a :: b :: c :: d :: rest, h => by
    rw [commaGroupAux]
    have ht : 'D' ∉ (d :: rest) := by
      intro hm; apply h; simp only [List.mem_cons] at hm ⊢; tauto
    have hrec := noD_commaGroupAux ht
    intro hm
    simp only [List.mem_cons] at hm h
    rcases hm with h1 | h1 | h1 | h1 | h1
    · exact h (Or.inl h1)
    · exact h (Or.inr (Or.inl h1))
    · exact h (Or.inr (Or.inr (Or.inl h1)))
    · exact absurd h1 (by decide)
    · exact hrec h1

theorem noD_commaGroup {ds : List Char} (h : 'D' ∉ ds) : 'D' ∉ commaGroup ds := by
  unfold commaGroup
  intro hm
  rw [List.mem_reverse] at hm
  exact noD_commaGroupAux (by simpa using h) hm

theorem noD_fracDigits (fuel num den : Nat) : 'D' ∉ fracDigits fuel num den := by
  induction fuel generalizing num with
  | zero => simp [fracDigits]
  | succ fuel ih =>
    cases num with
    | zero => simp [fracDigits]
    | succ m =>
      rw [fracDigits]
      intro hm
      simp only [List.mem_cons] at hm
      rcases hm with h1 | h1
      · exact digitChar_ne_D _ h1.symm
      · exact ih _ h1

theorem noD_formatRat (commas : Bool) (q : ℚ) : noD (formatRat commas q) := by
  have hip : 'D' ∉ (if commas then commaGroup (natDigits (q.num.natAbs / q.den))
      else natDigits (q.num.natAbs / q.den)) := by
    split
    · exact noD_commaGroup (noD_natDigits _)
    · exact noD_natDigits _
  have hfr : 'D' ∉ (if (fracDigits 20 (q.num.natAbs % q.den) q.den).isEmpty then ['0']
      else fracDigits 20 (q.num.natAbs % q.den) q.den) := by
    split
    · decide
    · exact noD_fracDigits _ _ _
  have hsign : 'D' ∉ (if q < 0 then ['-'] else ([] : List Char)) := by
    split <;> decide
  simp only [noD, formatRat, data_mk]
  intro hm
  simp only [List.mem_append, List.mem_cons] at hm
  rcases hm with (h | h) | (h | h)
  · exact hsign h
  · exact hip h
  · exact absurd h (by decide)
  · exact hfr h

theorem noD_formatNatC (n : Nat) : noD (formatNatC n) := by
  unfold noD formatNatC
  exact noD_commaGroup (noD_natDigits n)

/-- `pat` occurs as a contiguous substring of `s`. -/
def containsSubstr (s pat : String) : Prop := ∃ a b, s = a ++ pat ++ b

theorem not_contains_difference_of_noD {s : String} (h : noD s) :
    ¬ containsSubstr s "Difference" := by
  rintro ⟨a, b, rfl⟩
  apply h
  rw [data_append, data_append]
  exact List.mem_append_left _ (List.mem_append_right _ (by decide))

theorem noD_aggSelect (aggs : String → Option String) (y : String) :
    noD (aggSelect aggs y).2 := by
  unfold aggSelect
  rcases aggs y with _ | f
  · decide
  · simp only
    split <;> decide

theorem aggSelect_snd_cases (aggs : String → Option String) (y : String) :
    (aggSelect aggs y).2 = "Average" ∨ (aggSelect aggs y).2 = "Total" := by
  unfold aggSelect
  rcases aggs y with _ | f
  · exact Or.inl rfl
  · simp only
    split
    · exact Or.inl rfl
    · exact Or.inr rfl

theorem noD_aggSelect_replaced (aggs : String → Option String) (y : String) :
    noD (pyReplace (aggSelect aggs y).2 "Average" "Total") := by
  rcases aggSelect_snd_cases aggs y with h | h <;> rw [h] <;> decide

/-! ## Theorems: color-scale bounds (C1, C10) -/

/-- C1 (counterexample): the spec's 2x2 fallback table keyed on the
user bounds alone does not hold.  With `user_ymin = 5`, no user max,
config scale `{min: 1, max: 10}` and plotted column `[2, 20]`, the
spec's table demands the data maximum `20`, but the code returns the
config max `10`: the stored max falls back to the config scale before
the data is ever consulted. -/
theorem ymax_fallback_counterexample :
    Map.ymax (Map.initBounds (some 5) none (some 1) (some 10)) [2, 20] = some 10 ∧
    specYmaxTable (some 5) none (some 10) [2, 20] = some 20 ∧
    Map.ymax (Map.initBounds (some 5) none (some 1) (some 10)) [2, 20] ≠
      specYmaxTable (some 5) none (some 10) [2, 20] := by
  exact ⟨by decide, by decide, by decide⟩

/-- C1 (amended): the bounds resolve per-bound by truthiness.  Each
stored bound is the user value when truthy, else the config-scale
value; the max is derived from the data exactly when the stored min is
truthy and the stored max is falsy (so a truthy config max preempts
the data-derived max), and symmetrically for the min. -/
theorem bounds_fallback_resolution (uy1 uy2 c1 c2 : Option ℚ) (col : List ℚ) :
    (pyTruthy uy2 = true →
      Map.ymax (Map.initBounds uy1 uy2 c1 c2) col = uy2) ∧
    (pyTruthy uy2 = false → pyTruthy c2 = true →
      Map.ymax (Map.initBounds uy1 uy2 c1 c2) col = c2) ∧
    (pyTruthy uy2 = false → pyTruthy c2 = false → pyTruthy (pyOrOpt uy1 c1) = true →
      Map.ymax (Map.initBounds uy1 uy2 c1 c2) col = listMax col) ∧
    (pyTruthy uy2 = false → pyTruthy c2 = false → pyTruthy (pyOrOpt uy1 c1) = false →
      Map.ymax (Map.initBounds uy1 uy2 c1 c2) col = c2) ∧
    (pyTruthy uy1 = true →
      Map.ymin (Map.initBounds uy1 uy2 c1 c2) col = uy1) ∧
    (pyTruthy uy1 = false → pyTruthy c1 = true →
      Map.ymin (Map.initBounds uy1 uy2 c1 c2) col = c1) ∧
    (pyTruthy uy1 = false → pyTruthy c1 = false → pyTruthy (pyOrOpt uy2 c2) = true →
      Map.ymin (Map.initBounds uy1 uy2 c1 c2) col = listMin col) ∧
    (pyTruthy uy1 = false → pyTruthy c1 = false → pyTruthy (pyOrOpt uy2 c2) = false →
      Map.ymin (Map.initBounds uy1 uy2 c1 c2) col = c1) := by
  refine ⟨?_, ?_, ?_, ?_, ?_, ?_, ?_, ?_⟩ <;> intros <;>
    simp_all [Map.ymax, Map.ymin, Map.initBounds, pyOrOpt]

/-- Witness for the amended C1 theorem at concrete inputs. -/
theorem bounds_fallback_resolution_witness :
    Map.ymax (Map.initBounds (some 1) (some 2) none none) [] = some 2 ∧
    Map.ymax (Map.initBounds (some 1) none none none) [3, 7] = some 7 ∧
    Map.ymin (Map.initBounds none (some 2) none none) [3, 7] = some 3 :=
  ⟨(bounds_fallback_resolution (some 1) (some 2) none none []).1 (by decide),
    (bounds_fallback_resolution (some 1) none none none [3, 7]).2.2.1
      (by decide) (by decide) (by decide),
    (bounds_fallback_resolution none (some 2) none none [3, 7]).2.2.2.2.2.2.1
      (by decide) (by decide) (by decide)⟩

/-- C10: a bound equal to 0 is treated as absent.  A user bound of 0
falls through to the config-scale value both in `Map.__init__`
(`components/map.py`) and in `Map.unpack`
(`element_builders.py`), and a stored bound of 0 does not trigger the
data-derived fallback for the opposite bound. -/
theorem zero_bound_treated_as_absent (uy c1 c2 other : Option ℚ) (col : List ℚ) :
    (Map.initBounds (some 0) uy c1 c2)._ymin = c1 ∧
    (Map.initBounds uy (some 0) c1 c2)._ymax = c2 ∧
    Map.ymax ⟨some 0, other⟩ col = other ∧
    Map.ymin ⟨other, some 0⟩ col = other ∧
    (Map.unpackBounds (some 0) uy c1 c2)._ymin = c1 ∧
    (Map.unpackBounds uy (some 0) c1 c2)._ymax = c2 := by
  refine ⟨?_, ?_, ?_, ?_, ?_, ?_⟩ <;>
    simp [Map.initBounds, Map.unpackBounds, Map.ymax, Map.ymin, pyOrOpt, pyTruthy]

/-! ## Theorems: aggregation conditioner (C2) -/

/-- C2: for a static `AGGREGATIONS` table whose entries are the
aggregation-function names `"mean"` or `"sum"` (the spec's "mean vs.
sum" lookup), the conditioner selected by `build_title` is `"Total"`
exactly when the variable's entry is the sum function, and `"Average"`
otherwise — including for a variable with no entry, which defaults to
the mean. -/
theorem conditioner_total_iff_sum (aggs : String → Option String) (y : String)
    (h : ∀ f, aggs y = some f → f = "mean" ∨ f = "sum") :
    ((aggSelect aggs y).2 = "Total" ↔ aggs y = some "sum") ∧
    (aggs y = none → aggSelect aggs y = ("mean", "Average")) ∧
    ((aggSelect aggs y).2 = "Total" ∨ (aggSelect aggs y).2 = "Average") := by
  cases haggs : aggs y with
  | none => simp [aggSelect, haggs]
  | some f =>
    rcases h f haggs with rfl | rfl <;> simp [aggSelect, haggs]

/-- Witness for C2 at a concrete table. -/
theorem conditioner_total_iff_sum_witness :
    ((aggSelect (fun _ => some "sum") "capacity").2 = "Total" ↔
      (fun _ => some "sum") "capacity" = some "sum") ∧
    ((aggSelect (fun v => if v == "mean_lcoe" then some "mean" else none) "mean_lcoe").2
        = "Total" ↔
      (fun v => if v == "mean_lcoe" then some "mean" else none) "mean_lcoe" = some "sum") :=
  ⟨(conditioner_total_iff_sum (fun _ => some "sum") "capacity"
      (fun f hf => by cases hf; exact Or.inr rfl)).1,
    (conditioner_total_iff_sum (fun v => if v == "mean_lcoe" then some "mean" else none)
      "mean_lcoe" (fun f hf => by simp at hf; exact Or.inl hf.symm)).1⟩

/-! ## Theorems: Difference suffix (C3) -/

theorem occ_split_left {u v pat a b : List Char}
    (h : u ++ v = a ++ pat ++ b) (hle : a.length + pat.length ≤ u.length) :
    ∃ b2, u = a ++ pat ++ b2 := by
  have h2 : (u ++ v).take u.length = u := List.take_left u v
  rw [h] at h2
  rw [List.take_append_eq_append_take] at h2
  rw [List.take_of_length_le (by simp only [List.length_append]; omega)] at h2
  exact ⟨b.take (u.length - (a ++ pat).length), h2.symm⟩

theorem occ_split_right {u v pat a b : List Char}
    (h : u ++ v = a ++ pat ++ b) (hge : u.length ≤ a.length) :
    ∃ a2, v = a2 ++ pat ++ b := by
  have h2 : (u ++ v).drop u.length = v := List.drop_left u v
  rw [h] at h2
  rw [List.append_assoc] at h2
  rw [List.drop_append_eq_append_drop] at h2
  rw [Nat.sub_eq_zero_of_le hge, List.drop_zero] at h2
  exact ⟨a.drop u.length, by rw [← h2, List.append_assoc]⟩

theorem junction_eq {u v pat a b : List Char} {n : Nat}
    (h : u ++ v = a ++ pat ++ b) (h1 : a.length ≤ n) (h2 : n < a.length + pat.length) :
    (u ++ v)[n]? = pat[n - a.length]? := by
  rw [h]
  rw [List.getElem?_append_left (by simp only [List.length_append]; omega)]
  rw [List.getElem?_append_right h1]

theorem contains_append_break_start {u pat : List Char} {c : Char} {l : List Char}
    (hc : c ∉ pat) {a b : List Char} (h : u ++ (c :: l) = a ++ pat ++ b) :
    (∃ b2, u = a ++ pat ++ b2) ∨ (∃ a2, c :: l = a2 ++ pat ++ b) := by
  rcases le_or_lt (a.length + pat.length) u.length with hle | hlt
  · exact Or.inl (occ_split_left h hle)
  rcases le_or_lt u.length a.length with hge | hgt
  · exact Or.inr (occ_split_right h hge)
  exfalso
  have hjun := junction_eq h (n := u.length) (by omega) (by omega)
  have hlhs : (u ++ (c :: l))[u.length]? = some c := by
    rw [List.getElem?_append_right (le_refl _)]
    simp
  rw [hlhs] at hjun
  exact hc (List.getElem?_mem hjun.symm)

theorem contains_append_break_end {v pat : List Char} {c : Char} {l : List Char}
    (hc : c ∉ pat) {a b : List Char} (h : (l ++ [c]) ++ v = a ++ pat ++ b) :
    (∃ b2, l ++ [c] = a ++ pat ++ b2) ∨ (∃ a2, v = a2 ++ pat ++ b) := by
  rcases le_or_lt (a.length + pat.length) (l ++ [c]).length with hle | hlt
  · exact Or.inl (occ_split_left h hle)
  rcases le_or_lt (l ++ [c]).length a.length with hge | hgt
  · exact Or.inr (occ_split_right h hge)
  exfalso
  have hlen : (l ++ [c]).length = l.length + 1 := by simp
  have hjun := junction_eq h (n := l.length) (by omega) (by omega)
  have hlhs : ((l ++ [c]) ++ v)[l.length]? = some c := by
    rw [List.getElem?_append_left (by simp)]
    rw [List.getElem?_append_right (le_refl _)]
    simp
  rw [hlhs] at hjun
  exact hc (List.getElem?_mem hjun.symm)

/-- The string does not contain `"Difference"` as a substring. -/
def noDiff (s : String) : Prop := ¬ containsSubstr s "Difference"

theorem containsSubstr_toList {s pat : String} :
    containsSubstr s pat ↔ ∃ a b : List Char, s.data = a ++ pat.data ++ b := by
  constructor
  · rintro ⟨a, b, rfl⟩
    exact ⟨a.data, b.data, by simp [data_append]⟩
  · rintro ⟨a, b, hh⟩
    exact ⟨⟨a⟩, ⟨b⟩, String.ext (by simpa [data_append] using hh)⟩

/-- Gluing two `Difference`-free strings stays `Difference`-free when
the right part starts with a character that does not occur in
`"Difference"`: no occurrence can cross the junction. -/
theorem noDiff_append_startBreak {u v : String} {c : Char} {l : List Char}
    (hc : c ∉ "Difference".data) (hv : v.data = c :: l)
    (hu : noDiff u) (hvn : noDiff v) : noDiff (u ++ v) := by
  intro hcon
  rcases containsSubstr_toList.mp hcon with ⟨a, b, hh⟩
  rw [data_append, hv] at hh
  rcases contains_append_break_start hc hh with ⟨b2, hb⟩ | ⟨a2, ha⟩
  · exact hu (containsSubstr_toList.mpr ⟨a, b2, hb⟩)
  · exact hvn (containsSubstr_toList.mpr ⟨a2, b, by rw [hv, ha]⟩)

/-- The mirrored gluing lemma: the left part ends with a character
that does not occur in `"Difference"`. -/
theorem noDiff_append_endBreak {u v : String} {c : Char} {l : List Char}
    (hc : c ∉ "Difference".data) (hu2 : u.data = l ++ [c])
    (hu : noDiff u) (hvn : noDiff v) : noDiff (u ++ v) := by
  intro hcon
  rcases containsSubstr_toList.mp hcon with ⟨a, b, hh⟩
  rw [data_append, hu2] at hh
  rcases contains_append_break_end hc hh with ⟨b2, hb⟩ | ⟨a2, ha⟩
  · exact hu (containsSubstr_toList.mpr ⟨a, b2, by rw [hu2, hb]⟩)
  · exact hvn (containsSubstr_toList.mpr ⟨a2, b, ha⟩)

/-- A `" "`-join of `Difference`-free strings is `Difference`-free:
every junction carries a space. -/
theorem noDiff_pyJoinSpace :
    ∀ {xs : List String}, (∀ x ∈ xs, noDiff x) → noDiff (pyJoin " " xs)
  | [], _ => not_contains_difference_of_noD (by decide)
  | [x], h => h x (by simp)
  | x :: y :: ys, h => by
    rw [pyJoin]
    apply noDiff_append_endBreak (c := ' ') (l := x.data) (by decide) (data_append x " ")
    · apply noDiff_append_startBreak (c := ' ') (l := []) (by decide) rfl
      · exact h x (by simp)
      · exact not_contains_difference_of_noD (by decide)
    · exact noDiff_pyJoinSpace (fun z hz => h z (by simp at hz ⊢; tauto))

/-- The base title `s1<br>{title}` is `Difference`-free when its two
external parts are: the `<br>` separator blocks any crossing
occurrence. -/
theorem noDiff_baseTitle {s1 yt : String} (h1 : noDiff s1) (h2 : noDiff yt) :
    noDiff (s1 ++ "<br>" ++ yt) := by
  apply noDiff_append_endBreak (c := '>') (l := s1.data ++ ['<', 'b', 'r']) (by decide)
  · rw [data_append]
    simp [List.append_assoc]
  · exact noDiff_append_startBreak (c := '<') (l := ['b', 'r', '>']) (by decide) rfl h1
      (not_contains_difference_of_noD (by decide))
  · exact h2

theorem noDiff_withSelections {t2 : String} (h : noDiff t2)
    (mapSel chartSel : Option Selection) :
    noDiff (withSelections t2 mapSel chartSel) := by
  unfold withSelections
  have h3 : noDiff (match mapSel with
      | none => t2
      | some sel =>
        t2 ++ "  |  " ++ ("Selected point count: " ++ formatNatC sel.points.length)) := by
    cases mapSel with
    | none => exact h
    | some sel =>
      apply noDiff_append_endBreak (c := ' ') (l := t2.data ++ [' ', ' ', '|', ' '])
        (by decide)
      · rw [data_append]
        simp [List.append_assoc]
      · exact noDiff_append_startBreak (c := ' ') (l := [' ', '|', ' ', ' ']) (by decide)
          rfl h (not_contains_difference_of_noD (by decide))
      · exact not_contains_difference_of_noD (noD_append (by decide) (noD_formatNatC _))
  cases chartSel with
  | none => exact h3
  | some sel =>
    exact noDiff_baseTitle h3
      (not_contains_difference_of_noD (noD_append (by decide) (noD_formatNatC _)))

theorem noDiff_mapTitleSegment {title1 conditioner2 : String} (h1 : noDiff title1)
    (h2 : noD conditioner2) (ag : ℚ) {punits : List String}
    (hp : ∀ p ∈ punits, noDiff p) :
    noDiff (mapTitleSegment title1 conditioner2 ag punits) := by
  unfold mapTitleSegment
  apply noDiff_pyJoinSpace
  intro x hx
  simp only [List.cons_append, List.mem_cons] at hx
  rcases hx with rfl | rfl | hx
  · exact h1
  · exact not_contains_difference_of_noD
      (noD_append (noD_append (noD_append (by decide) h2) (by decide))
        (noD_formatRat true ag))
  · exact hp x (by simpa using hx)

theorem noDiff_titleStep2 (aggs : String → Option String) (cfg : BtConfig)
    (df : Option Df) (signal : SignalDict) {s1 : String}
    (hdiff : DiffUnitOptions.from_variable_name signal.y = none)
    (hns1 : noDiff s1)
    (hyt : noDiff (lookupD cfg.titles (DiffUnitOptions.remove_from_variable_name signal.y)
      (convert_to_title signal.y)))
    (hun : noDiff (lookupD cfg.units (DiffUnitOptions.remove_from_variable_name signal.y) "")) :
    ∀ t2, titleStep2 aggs cfg df signal s1 = some t2 → noDiff t2 := by
  intro t2 ht
  have hbeq : ((none : Option DiffUnitOptions) == some DiffUnitOptions.percentage) = false := rfl
  have hT1 : noDiff (s1 ++ "<br>" ++
      lookupD cfg.titles (DiffUnitOptions.remove_from_variable_name signal.y)
        (convert_to_title signal.y)) :=
    noDiff_baseTitle hns1 hyt
  have hTW : ∀ p ∈ ["TW"], noDiff p := by
    intro p hp
    simp only [List.mem_singleton] at hp
    subst hp
    exact not_contains_difference_of_noD (by decide)
  have hUnits : ∀ p ∈ [lookupD cfg.units (DiffUnitOptions.remove_from_variable_name signal.y) ""],
      noDiff p := by
    intro p hp
    simp only [List.mem_singleton] at hp
    subst hp
    exact hun
  have hHy : ∀ (q : ℚ), noDiff ("  |  Total H2: " ++ formatRat true q) := fun q =>
    not_contains_difference_of_noD (noD_append (by decide) (noD_formatRat true q))
  cases df with
  | none =>
    unfold titleStep2 at ht
    simp only [hdiff, hbeq, Option.isSome_none, Bool.false_eq_true, if_false,
      Option.some.injEq] at ht
    subst ht
    exact hT1
  | some d =>
    unfold titleStep2 at ht
    simp only [hdiff, hbeq, Option.isSome_none, Bool.false_eq_true, if_false] at ht
    split at ht
    · rcases hcol : d.getNumCol signal.y with _ | vals
      · rw [hcol] at ht
        simp only [Option.none_bind] at ht
        exact absurd ht (by simp)
      · rw [hcol] at ht
        simp only [Option.some_bind] at ht
        split at ht
        · -- hydrogen column present
          rcases hh : d.getNumCol "hydrogen_annual_kg" with _ | hv
          · rw [hh] at ht
            simp only [Option.none_bind] at ht
            exact absurd ht (by simp)
          · rw [hh] at ht
            simp only [Option.some_bind, Option.some.injEq] at ht
            split at ht
            all_goals try simp only [] at ht
            all_goals subst ht
            · apply noDiff_pyJoinSpace
              intro x hx
              simp only [List.mem_cons, List.not_mem_nil, or_false] at hx
              rcases hx with rfl | rfl
              · exact noDiff_mapTitleSegment hT1 (noD_aggSelect_replaced aggs _) _ hTW
              · exact hHy _
            · apply noDiff_pyJoinSpace
              intro x hx
              simp only [List.mem_cons, List.not_mem_nil, or_false] at hx
              rcases hx with rfl | rfl
              · exact noDiff_mapTitleSegment hT1 (noD_aggSelect aggs _) _ hUnits
              · exact hHy _
        · -- no hydrogen column
          simp only [Option.some.injEq] at ht
          split at ht
          all_goals try simp only [] at ht
          all_goals subst ht
          · exact noDiff_mapTitleSegment hT1 (noD_aggSelect_replaced aggs _) _ hTW
          · exact noDiff_mapTitleSegment hT1 (noD_aggSelect aggs _) _ hUnits
    · simp only [Option.some.injEq] at ht
      subst ht
      exact hT1

theorem listIsPrefixOf_iff : ∀ {p l : List Char},
    listIsPrefixOf p l = true ↔ ∃ t, l = p ++ t
  | [], l => by simp [listIsPrefixOf]
  | c :: p, [] => by simp [listIsPrefixOf]
  | c :: p, d :: l => by
    rw [listIsPrefixOf]
    simp only [Bool.and_eq_true, beq_iff_eq]
    constructor
    · rintro ⟨rfl, h⟩
      rcases listIsPrefixOf_iff.mp h with ⟨t, rfl⟩
      exact ⟨t, rfl⟩
    · rintro ⟨t, he⟩
      rw [List.cons_append] at he
      injection he with h1 h2
      subst h1
      exact ⟨rfl, listIsPrefixOf_iff.mpr ⟨t, h2⟩⟩

theorem listIsInfixOf_iff : ∀ {pat l : List Char},
    listIsInfixOf pat l = true ↔ ∃ a b, l = a ++ pat ++ b
  | pat, [] => by
    rw [listIsInfixOf]
    constructor
    · intro h
      rcases listIsPrefixOf_iff.mp h with ⟨t, ht⟩
      exact ⟨[], t, by simpa using ht⟩
    · rintro ⟨a, b, he⟩
      apply listIsPrefixOf_iff.mpr
      rcases a with _ | ⟨x, a2⟩
      · exact ⟨b, by simpa using he⟩
      · simp at he
  | pat, c :: l => by
    rw [listIsInfixOf]
    simp only [Bool.or_eq_true]
    constructor
    · rintro (h | h)
      · rcases listIsPrefixOf_iff.mp h with ⟨t, ht⟩
        exact ⟨[], t, by simpa using ht⟩
      · rcases listIsInfixOf_iff.mp h with ⟨a, b, rfl⟩
        exact ⟨c :: a, b, by simp⟩
    · rintro ⟨a, b, he⟩
      rcases a with _ | ⟨x, a2⟩
      · exact Or.inl (listIsPrefixOf_iff.mpr ⟨b, by simpa using he⟩)
      · right
        rw [List.cons_append, List.cons_append] at he
        injection he with h1 h2
        exact listIsInfixOf_iff.mpr ⟨a2, b, h2⟩

/-- The propositional substring relation agrees with the executable
Python `in` test of the embedding. -/
theorem containsSubstr_iff_pyIn {s pat : String} :
    containsSubstr s pat ↔ pyIn pat s = true := by
  rw [containsSubstr_toList]
  exact listIsInfixOf_iff.symm

theorem not_containsSubstr_of_pyIn_eq_false {s pat : String}
    (h : pyIn pat s = false) : ¬ containsSubstr s pat := by
  rw [containsSubstr_iff_pyIn, h]
  simp

/-- C3: for a `y` variable that is neither a difference variable nor a
percentage variable, the title returned by `build_title` never
contains the `"Difference"` suffix: the difference branch is not
taken, every junction of the assembled title carries a separator
character that does not occur in `"Difference"`, and the only way the
substring could appear is if an external input string (scenario name,
config title lookup or unit lookup) itself already contains
`"Difference"`, which the hypotheses exclude. -/
theorem build_title_no_difference_for_plain_variable
    (aggs : String → Option String) (cfg : BtConfig) (df : Option Df)
    (signal : SignalDict) (mapSel chartSel : Option Selection)
    (hdiff : DiffUnitOptions.from_variable_name signal.y = none)
    (hs1 : ∀ s, s1_final signal = some s → ¬ containsSubstr s "Difference")
    (hyt : ¬ containsSubstr
      (lookupD cfg.titles (DiffUnitOptions.remove_from_variable_name signal.y)
        (convert_to_title signal.y)) "Difference")
    (hun : ¬ containsSubstr
      (lookupD cfg.units (DiffUnitOptions.remove_from_variable_name signal.y) "")
      "Difference")
    (t : String) (ht : buildTitle aggs cfg df signal mapSel chartSel = some t) :
    ¬ containsSubstr t "Difference" := by
  unfold buildTitle at ht
  rcases hs1f : s1_final signal with _ | s1
  · rw [hs1f] at ht
    simp only [Option.none_bind] at ht
    exact absurd ht (by simp)
  · rw [hs1f] at ht
    simp only [Option.some_bind] at ht
    rcases ht2 : titleStep2 aggs cfg df signal s1 with _ | t2
    · rw [ht2] at ht
      simp only [Option.none_bind] at ht
      exact absurd ht (by simp)
    · rw [ht2] at ht
      simp only [Option.some_bind, Option.some.injEq] at ht
      subst ht
      exact noDiff_withSelections
        (noDiff_titleStep2 aggs cfg df signal hdiff (hs1 s1 hs1f) hyt hun t2 ht2)
        mapSel chartSel

/-- Witness for C3 at a concrete signal whose default variable title
`"Total Demand"` contains a capital `D` but not `"Difference"`. -/
theorem build_title_no_difference_witness :
    buildTitle (fun _ => none) ⟨[], []⟩ none ⟨"p_sc.csv", "q", "total_demand", "off", none⟩
        none none = some "P<br>Total Demand" ∧
    ¬ containsSubstr "P<br>Total Demand" "Difference" := by
  refine ⟨by decide, ?_⟩
  exact build_title_no_difference_for_plain_variable (fun _ => none) ⟨[], []⟩ none
    ⟨"p_sc.csv", "q", "total_demand", "off", none⟩ none none (by decide)
    (fun s hs => by
      rw [show s1_final ⟨"p_sc.csv", "q", "total_demand", "off", none⟩ = some "P"
        from by decide] at hs
      injection hs with h2
      subst h2
      exact not_containsSubstr_of_pyIn_eq_false (by decide))
    (not_containsSubstr_of_pyIn_eq_false (by decide))
    (not_containsSubstr_of_pyIn_eq_false (by decide))
    "P<br>Total Demand" (by decide)


/-! ## Project configuration (`reView/utils/config.py`) -/

/-- The underlying per-project configuration dictionary.  `get k` is
Python's `config.get(k)`: `none` both when the key is absent and when
its value is `None` (the two cases `_check_required_keys_exist` treats
identically); values are modelled as strings. -/
structure ProjectConfig where
  get : String → Option String

/-- `Config.REQUIREMENTS = {"directory"}` (line 131). -/
def REQUIREMENTS : List String := ["directory"]

/-- Python's `repr` of a list of strings, as interpolated into the
missing-keys error message (`f"... keys: {missing}"`). -/
def pyReprStrList (l : List String) : String :=
  "[" ++ pyJoin ", " (l.map (fun s => "'" ++ s ++ "'")) ++ "]"

/-- The `ValueError` message of `_check_required_keys_exist`
(lines 321-327). -/
def missingKeysMsg (project : String) (missing : List String) : String :=
  "Config for project '" ++ project ++ "' missing the following keys: " ++
    pyReprStrList missing

/-- The `ValueError` message of `_set_config` (lines 363-367). -/
def noProjectMsg (project : String) : String :=
  "No project with name '" ++ project ++ "' found in config directory"

/-- `_set_config`'s loop over `PROJECT_CONFIGS.items()` (lines
357-361): the last case-insensitive name match wins, `none` when no
name matches. -/
def setConfig (configs : List (String × ProjectConfig)) (project : String) :
    Option ProjectConfig :=
  configs.foldl
    (fun acc nc => if pyLower nc.1 == pyLower project then some nc.2 else acc)
    none

/-- `_check_required_keys_exist` (lines 315-327): the keys of
`REQUIREMENTS` whose `config.get` is `None`. -/
def missingKeys (cfg : ProjectConfig) : List String :=
  REQUIREMENTS.filter (fun req => (cfg.get req).isNone)

/-- A successfully constructed `Config` object (its `project` and
`_config` attributes). -/
structure ConfigObj where
  project : String
  config : ProjectConfig

/-- `Config.__init__` (lines 136-142): `_check_valid_project_name`
(`ValueError` on a `None` project), `_set_config` (`ValueError` when
no project name matches case-insensitively), then
`_check_required_keys_exist` (`ValueError` listing the missing keys).
`.error` carries the `ValueError` message. -/
def configInit (configs : List (String × ProjectConfig)) (project : Option String) :
    Except String ConfigObj :=
  match project with
  | none => .error "Project input cannot be None!"
  | some p =>
    match setConfig configs p with
    | none => .error (noProjectMsg p)
    | some cfg =>
      match missingKeys cfg with
      | [] => .ok ⟨p, cfg⟩
      | m => .error (missingKeysMsg p m)

/-! ## Capacity-column inference (`infer_capcol`, lines 94-106) -/

/-- `contains(pattern, patterns)` (lines 41-58): does `pattern`
contain any of `patterns` as a substring? -/
def contains_any (pattern : String) (patterns : List String) : Bool :=
  patterns.any (fun p => pyIn p pattern)

/-- The candidate capacity columns of a file: the columns containing
`"capacity"`, minus those containing a skipper
(`density`/`turbine`/`system`) — lines 97-99. -/
def capacityCandidates (cols : List String) : List String :=
  ((cols.filter (fun col => pyIn "capacity" col)).filter
    (fun col => !contains_any col ["density", "turbine", "system"]))

/-- `infer_capcol` (lines 94-106) over the column names of the file:
one candidate, or the first candidate containing `"_ac"`, else a
`KeyError`.  `.error` carries the `KeyError` message. -/
def infer_capcol (cols : List String) : Except String String :=
  let capcols := capacityCandidates cols
  if capcols.length == 1 then .ok (capcols.headD "")
  else if capcols.any (fun col => pyIn "_ac" col) then
    .ok ((capcols.filter (fun col => pyIn "_ac" col)).headD "")
  else .error "Could not find capacity column"

/-! ## Cached CSV reading (`_safe_read_csv`, lines 370-377) -/

/-- A dataframe read: what `pd.read_csv` does for a path — succeed, or
raise one of the two exception types `_safe_read_csv` catches
(`ValueError` covers unreadable/unparsable content, `FileNotFoundError`
a missing file). -/
inductive ReadOutcome
  | ok (data : Df)
  | valueError
  | fileNotFound
  deriving Repr

/-- `_safe_read_csv` without its cache (lines 372-377): `try
pd.read_csv(path) except (ValueError, FileNotFoundError): data = None`.
A `None` path makes `pd.read_csv` raise a `ValueError`, also caught.
Total by construction: no exception escapes. -/
def safeReadCsv (fs : String → ReadOutcome) (path : Option String) : Option Df :=
  match path with
  | none => none
  | some p =>
    match fs p with
    | .ok data => some data
    | .valueError => none
    | .fileNotFound => none

/-- The state of the `@lru_cache(maxsize=16)` wrapper: key/result
pairs, most recently used first. -/
structure LruCache where
  entries : List (Option String × Option Df)

/-- One call of the cached `_safe_read_csv`: a hit moves the entry to
the front and never consults the file system; a miss reads, inserts
the result at the front and evicts beyond 16 entries. -/
def cachedSafeRead (fs : String → ReadOutcome) (st : LruCache)
    (path : Option String) : Option Df × LruCache :=
  match st.entries.find? (fun e => e.1 == path) with
  | some e => (e.2, ⟨e :: st.entries.eraseP (fun e2 => e2.1 == path)⟩)
  | none =>
    let r := safeReadCsv fs path
    (r, ⟨((path, r) :: st.entries).take 16⟩)

/-! ## Per-project singleton cache (`Config.__new__`, lines 130-134) -/

/-- The process state behind `Config._all_configs`: the project-name →
object-identity map, plus a counter supplying fresh object
identities. -/
structure ConfigCache where
  entries : List (String × Nat)
  nextId : Nat
  deriving Repr, DecidableEq

/-- `Config.__new__` (lines 133-134):
`cls._all_configs.setdefault(project, super().__new__(cls))`.  Python
allocates the fresh object eagerly (the counter always advances), but
`setdefault` returns the cached object when the key is present and
only inserts otherwise. -/
def configNew (st : ConfigCache) (project : String) : Nat × ConfigCache :=
  match st.entries.find? (fun e => e.1 == project) with
  | some e => (e.2, ⟨st.entries, st.nextId + 1⟩)
  | none => (st.nextId, ⟨st.entries ++ [(project, st.nextId)], st.nextId + 1⟩)

/-- The object identity the cache associates to a project name. -/
def cacheLookup (st : ConfigCache) (project : String) : Option Nat :=
  (st.entries.find? (fun e => e.1 == project)).map (fun e => e.2)

/-! ## Map.figure and the in-place `"text"` column (C9)

`Map.figure` (lines 80-83 of `components/map.py`) starts with
`self.df["text"] = self.hover_text`, a pandas column assignment on the
dataframe object the caller passed to `Map.__init__`.  Object identity
is modelled with a heap of dataframes addressed by references: the
`Map` stores a reference, and in the non-bespoke path it is the
caller's reference. -/

/-- `str(x)` of a cell (`Series.astype(str)` elementwise): the float
rendering for numbers, the string itself otherwise. -/
def cellAsStr : ColData → List String
  | ColData.nums vals => vals.map (formatRat false)
  | ColData.strs vals => vals

/-- Four-list `zipWith`, for the county/state/extras/value hover rows. -/
def zipWith4 {α β γ δ ε : Type} (f : α → β → γ → δ → ε) :
    List α → List β → List γ → List δ → List ε
  | a :: as, b :: bs, c :: cs, d :: ds => f a b c d :: zipWith4 f as bs cs ds
  | _, _, _, _ => []

/-- The demand-data hover text (lines 149-157):
`sera_node + ", " + State + ". <br>Demand:   " + load.astype(str) + " kg"`.
`none` where Python raises (missing column, or a non-string column in
a string concatenation). -/
def demandText (dd : Df) : Option (List String) :=
  match dd.getStrCol "sera_node", dd.getStrCol "State", dd.getCol "load" with
  | some sn, some stt, some loadc =>
    some (List.zipWith3
      (fun a b c => a ++ ", " ++ b ++ ". <br>Demand:   " ++ c ++ " kg")
      sn stt (cellAsStr loadc))
  | _, _, _ => none

/-- The category-units hover text (lines 158-170), with the
`except KeyError` fallback for a missing `county`/`state`/`y` column;
`none` where Python raises an uncaught error (string column under
`round`, numeric column in a string concatenation). -/
def categoryText (d : Df) (y units : String) : Option (List String) :=
  if d.hasCol "county" && d.hasCol "state" && d.hasCol y then
    match d.getStrCol "county", d.getStrCol "state", d.getCol y with
    | some cnty, some stt, some yc =>
      some (List.zipWith3
        (fun a b c => a ++ " County, " ++ b ++ ": <br>   " ++ c ++ " " ++ units)
        cnty stt (cellAsStr yc))
    | _, _, _ => none
  else
    match d.getCol y with
    | some (ColData.nums yv) =>
      some ((yv.map (fun q => pyRound q 2)).map
        (fun q => formatRat false q ++ " " ++ units))
    | _ => none

/-- The `extra_str` additions (lines 172-186): the H2-supply row
(`f"{x:,}"`) when `hydrogen_annual_kg` is present and the
distance-to-load row (`f"{x:,.2f}"`) when `dist_to_selected_load` is
present, over a base of `n` empty strings. -/
def extrasCol (d : Df) (n : Nat) : Option (List String) :=
  let step1 : Option (List String) :=
    if d.hasCol "hydrogen_annual_kg" then
      (d.getNumCol "hydrogen_annual_kg").map (fun hv =>
        List.zipWith
          (fun e x => e ++ ("<br>    H2 Supply:    " ++ formatRat true x ++ " kg    "))
          (List.replicate n "") hv)
    else some (List.replicate n "")
  step1.bind fun ex1 =>
    if d.hasCol "dist_to_selected_load" then
      (d.getNumCol "dist_to_selected_load").map (fun dv =>
        List.zipWith
          (fun e x => e ++ ("<br>    Dist to load:    " ++ formatFixed2 x ++ " km    "))
          ex1 dv)
    else some ex1

/-- The default hover text (lines 171-207): county/state prefix when
those columns exist (the `except KeyError` fallback drops the prefix),
the extras, the `convert_to_title(y)` label, and `round(df[y], 2)`
rendered with the units.  `none` where Python raises an uncaught
error. -/
def mainText (d : Df) (y units : String) : Option (List String) :=
  match d.getCol y with
  | some (ColData.nums yv) =>
    let ys := (yv.map (fun q => pyRound q 2)).map (formatRat false)
    (extrasCol d yv.length).bind fun ex =>
      if d.hasCol "county" && d.hasCol "state" then
        match d.getStrCol "county", d.getStrCol "state" with
        | some cnty, some stt =>
          some (zipWith4
            (fun a b e c =>
              a ++ " County, " ++ b ++ ":" ++ e ++
                "<br>    " ++ convert_to_title y ++ ":   " ++ c ++ " " ++ units)
            cnty stt ex ys)
        | _, _ => none
      else
        some (List.zipWith
          (fun e c =>
            e ++ "<br>    " ++ convert_to_title y ++ ":   " ++ c ++ " " ++ units)
          ex ys)
  | _ => none

/-- A heap of dataframe objects addressed by references. -/
structure Heap where
  dfs : List Df

/-- Dereference (out-of-range reads give an empty frame). -/
def Heap.get (h : Heap) (r : Nat) : Df := h.dfs.getD r ⟨[]⟩

/-- In-place update of the object at `r`. -/
def Heap.set (h : Heap) (r : Nat) (d : Df) : Heap := ⟨h.dfs.set r d⟩

/-- The attributes of a `Map` object that `figure`/`hover_text`
consult: the reference to `self.df`, `self.units`, `self._y` and
`self.demand_data`. -/
structure MapObj where
  dfRef : Nat
  units : String
  yVar : String
  demand_data : Option Df

/-- The `Map.y` property (lines 271-277): `demand_connect_count` when
that column exists, else `self._y`. -/
def MapObj.y (m : MapObj) (d : Df) : String :=
  if d.hasCol "demand_connect_count" then "demand_connect_count" else m.yVar

/-- `Map.hover_text` (lines 146-209). -/
def MapObj.hover_text (m : MapObj) (d : Df) : Option (List String) :=
  match m.demand_data with
  | some dd => demandText dd
  | none =>
    if m.units == "category" then categoryText d (m.y d) m.units
    else mainText d (m.y d) m.units

/-- Lines 63-66 of `Map.__init__`: when the trigger contains
`"clickData"` and the frame has a `turbine_y_coords` column, `self.df`
is rebound to `unpacker.unpack_turbines()` (a fresh object, passed
here as `unpacked` since `BespokeUnpacker` is not under `src/`);
otherwise `self.df` aliases the caller's dataframe. -/
def mapInitRef (trigger : String) (heap : Heap) (callerRef : Nat) (unpacked : Df) :
    Nat × Heap :=
  if pyIn "clickData" trigger && (heap.get callerRef).hasCol "turbine_y_coords" then
    (heap.dfs.length, ⟨heap.dfs ++ [unpacked]⟩)
  else (callerRef, heap)

/-- The dataframe effect of evaluating `Map.figure` (lines 80-83):
`self.df["text"] = self.hover_text` assigns the hover text as the
`"text"` column of the object `self.df` refers to; when `hover_text`
raises, no assignment happens (`none`). -/
def MapObj.figureEffect (m : MapObj) (heap : Heap) : Option Heap :=
  (m.hover_text (heap.get m.dfRef)).map fun txt =>
    heap.set m.dfRef ((heap.get m.dfRef).setCol "text" (ColData.strs txt))

/-! ## Theorems: configuration, capacity column, caching (C4-C8) and figure mutation (C9) -/

theorem strAppend_assoc (a b c : String) : (a ++ b) ++ c = a ++ (b ++ c) := by
  apply String.ext
  simp [data_append, List.append_assoc]

/-- C4 helper: the error message of a missing `directory` key contains
the key name. -/
theorem missingKeysMsg_contains_directory (p : String) :
    containsSubstr (missingKeysMsg p ["directory"]) "directory" := by
  refine ⟨"Config for project '" ++ p ++ "' missing the following keys: ['", "']", ?_⟩
  apply String.ext
  simp [missingKeysMsg, pyReprStrList, pyJoin, data_append, List.append_assoc]

/-- C4: with a valid project name, construction fails with a
ValueError listing every missing required key when `directory` is
absent or None, and succeeds exactly when every required key is
present and non-None. -/
theorem config_requires_directory (configs : List (String × ProjectConfig))
    (p : String) (cfg : ProjectConfig) (hset : setConfig configs p = some cfg) :
    (cfg.get "directory" = none →
      configInit configs (some p) = .error (missingKeysMsg p ["directory"]) ∧
      ∀ k ∈ missingKeys cfg, containsSubstr (missingKeysMsg p (missingKeys cfg)) k) ∧
    ((∀ k ∈ REQUIREMENTS, cfg.get k ≠ none) →
      configInit configs (some p) = .ok ⟨p, cfg⟩) ∧
    (∀ obj, configInit configs (some p) = .ok obj →
      ∀ k ∈ REQUIREMENTS, cfg.get k ≠ none) := by
  refine ⟨?_, ?_, ?_⟩
  · intro hdir
    have hmiss : missingKeys cfg = ["directory"] := by
      simp [missingKeys, REQUIREMENTS, hdir]
    constructor
    · simp [configInit, hset, hmiss]
    · rw [hmiss]
      intro k hk
      simp only [List.mem_singleton] at hk
      subst hk
      exact missingKeysMsg_contains_directory p
  · intro hall
    have : cfg.get "directory" ≠ none := hall "directory" (by simp [REQUIREMENTS])
    have hmiss : missingKeys cfg = [] := by
      simp [missingKeys, REQUIREMENTS]
      exact this
    simp [configInit, hset, hmiss]
  · intro obj hok k hk
    simp only [REQUIREMENTS, List.mem_singleton] at hk
    subst hk
    intro hdir
    have hmiss : missingKeys cfg = ["directory"] := by
      simp [missingKeys, REQUIREMENTS, hdir]
    simp [configInit, hset, hmiss] at hok

/-- Witness for C4. -/
theorem config_requires_directory_witness :
    (configInit [("test", ⟨fun _ => none⟩)] (some "test")
        = .error (missingKeysMsg "test" ["directory"]) ∧
      containsSubstr (missingKeysMsg "test" ["directory"]) "directory") ∧
    configInit [("full", ⟨fun _ => some "/data"⟩)] (some "full")
        = .ok ⟨"full", ⟨fun _ => some "/data"⟩⟩ := by
  constructor
  · have h := (config_requires_directory [("test", ⟨fun _ => none⟩)] "test"
      ⟨fun _ => none⟩ rfl).1 rfl
    exact ⟨h.1, h.2 "directory" (by simp [missingKeys, REQUIREMENTS])⟩
  · exact (config_requires_directory [("full", ⟨fun _ => some "/data"⟩)] "full"
      ⟨fun _ => some "/data"⟩ rfl).2.1 (fun k _ => by simp)

theorem setConfig_eq_none {configs : List (String × ProjectConfig)} {p : String}
    (h : ∀ nc ∈ configs, pyLower nc.1 ≠ pyLower p) : setConfig configs p = none := by
  unfold setConfig
  induction configs with
  | nil => rfl
  | cons nc rest ih =>
    simp only [List.foldl_cons]
    rw [if_neg (by simpa using h nc (by simp))]
    exact ih (fun nc2 hnc2 => h nc2 (by simp [hnc2]))

/-- C5: a `None` project name fails with a ValueError, and a project
name matching no configured project (case-insensitively) fails with a
ValueError at construction. -/
theorem config_unknown_project_errors (configs : List (String × ProjectConfig)) :
    configInit configs none = .error "Project input cannot be None!" ∧
    ∀ p : String, (∀ nc ∈ configs, pyLower nc.1 ≠ pyLower p) →
      configInit configs (some p) = .error (noProjectMsg p) := by
  refine ⟨rfl, ?_⟩
  intro p hp
  simp [configInit, setConfig_eq_none hp]

/-- Witness for C5. -/
theorem config_unknown_project_errors_witness :
    configInit ([] : List (String × ProjectConfig)) none
        = .error "Project input cannot be None!" ∧
    configInit ([] : List (String × ProjectConfig)) (some "atlantis")
        = .error (noProjectMsg "atlantis") :=
  ⟨(config_unknown_project_errors []).1,
    (config_unknown_project_errors []).2 "atlantis" (fun nc hnc => by simp at hnc)⟩

/-- C6: `infer_capcol` fails with a KeyError exactly when no candidate
capacity column exists or several candidates exist none of which
contains `"_ac"`; a single candidate is returned as is, and when some
candidate contains `"_ac"` a candidate is returned without error. -/
theorem infer_capcol_cases (cols : List String) :
    (capacityCandidates cols = [] →
      infer_capcol cols = .error "Could not find capacity column") ∧
    (2 ≤ (capacityCandidates cols).length →
      (∀ c ∈ capacityCandidates cols, pyIn "_ac" c = false) →
      infer_capcol cols = .error "Could not find capacity column") ∧
    ((capacityCandidates cols).length = 1 →
      infer_capcol cols = .ok ((capacityCandidates cols).headD "") ∧
      (capacityCandidates cols).headD "" ∈ capacityCandidates cols) ∧
    ((∃ c ∈ capacityCandidates cols, pyIn "_ac" c = true) →
      ∃ c ∈ capacityCandidates cols, infer_capcol cols = .ok c) := by
  refine ⟨?_, ?_, ?_, ?_⟩
  · intro h
    simp [infer_capcol, h]
  · intro hlen hnone
    unfold infer_capcol
    rw [if_neg (by simp; omega)]
    rw [if_neg ?_]
    simp only [List.any_eq_true, not_exists]
    intro c
    simp only [not_and]
    intro hc
    simp [hnone c hc]
  · intro hlen
    refine ⟨by simp [infer_capcol, hlen], ?_⟩
    rcases hc : capacityCandidates cols with _ | ⟨c, rest⟩
    · rw [hc] at hlen; simp at hlen
    · simp
  · intro hex
    rcases hex with ⟨c, hc, hac⟩
    by_cases hlen : (capacityCandidates cols).length == 1
    · refine ⟨(capacityCandidates cols).headD "", ?_, by simp [infer_capcol, hlen]⟩
      rcases hcands : capacityCandidates cols with _ | ⟨c2, rest⟩
      · rw [hcands] at hc; simp at hc
      · simp
    · have hany : (capacityCandidates cols).any (fun col => pyIn "_ac" col) = true := by
        rw [List.any_eq_true]
        exact ⟨c, hc, hac⟩
      have hne : (capacityCandidates cols).filter (fun col => pyIn "_ac" col) ≠ [] := by
        intro hnil
        have hmem : c ∈ (capacityCandidates cols).filter (fun col => pyIn "_ac" col) :=
          List.mem_filter.mpr ⟨hc, hac⟩
        rw [hnil] at hmem
        simp at hmem
      have hmemf : ((capacityCandidates cols).filter (fun col => pyIn "_ac" col)).headD ""
          ∈ (capacityCandidates cols).filter (fun col => pyIn "_ac" col) := by
        rcases hfl : (capacityCandidates cols).filter (fun col => pyIn "_ac" col)
          with _ | ⟨x, xs⟩
        · exact absurd hfl hne
        · simp
      refine ⟨((capacityCandidates cols).filter (fun col => pyIn "_ac" col)).headD "",
        (List.mem_filter.mp hmemf).1, ?_⟩
      unfold infer_capcol
      rw [if_neg (by simpa using hlen), if_pos hany]

/-- Witness for C6. -/
theorem infer_capcol_cases_witness :
    (infer_capcol ["capacity"] = .ok ((capacityCandidates ["capacity"]).headD "") ∧
      (capacityCandidates ["capacity"]).headD "" ∈ capacityCandidates ["capacity"]) ∧
    infer_capcol ["capacity_dc_mw", "capacity_kw"]
        = .error "Could not find capacity column" ∧
    (∃ c ∈ capacityCandidates ["capacity_dc_mw", "capacity_ac_mw"],
      infer_capcol ["capacity_dc_mw", "capacity_ac_mw"] = .ok c) :=
  ⟨(infer_capcol_cases ["capacity"]).2.2.1 (by decide),
    (infer_capcol_cases ["capacity_dc_mw", "capacity_kw"]).2.1 (by decide)
      (by decide),
    (infer_capcol_cases ["capacity_dc_mw", "capacity_ac_mw"]).2.2.2
      ⟨"capacity_ac_mw", by decide, by decide⟩⟩

/-- C7: a read that fails (missing file or unreadable content — the
`FileNotFoundError`/`ValueError` cases `_safe_read_csv` catches)
returns `None` instead of raising, and the `lru_cache` stores that
result: a repeated read of the same failing path is a cache hit that
returns the same `None` and leaves the cache state unchanged. -/
theorem safe_read_failure_cached (fs : String → ReadOutcome) (st : LruCache)
    (path : Option String)
    (hfail : ∀ p, path = some p → fs p = .valueError ∨ fs p = .fileNotFound)
    (hmiss : st.entries.find? (fun e => e.1 == path) = none) :
    safeReadCsv fs path = none ∧
    (cachedSafeRead fs st path).1 = none ∧
    cachedSafeRead fs ((cachedSafeRead fs st path).2) path =
      (none, (cachedSafeRead fs st path).2) := by
  have hread : safeReadCsv fs path = none := by
    rcases path with _ | p
    · rfl
    · rcases hfail p rfl with h | h <;> simp [safeReadCsv, h]
  refine ⟨hread, ?_, ?_⟩
  · simp [cachedSafeRead, hmiss, hread]
  · have hstate : (cachedSafeRead fs st path).2 =
        ⟨(path, none) :: st.entries.take 15⟩ := by
      simp [cachedSafeRead, hmiss, hread, List.take_succ_cons]
    rw [hstate]
    simp [cachedSafeRead, List.find?_cons_of_pos, List.eraseP_cons_of_pos]

/-- Witness for C7. -/
theorem safe_read_failure_cached_witness :
    safeReadCsv (fun _ => ReadOutcome.fileNotFound) (some "missing.csv") = none ∧
    (cachedSafeRead (fun _ => ReadOutcome.fileNotFound) ⟨[]⟩ (some "missing.csv")).1
        = none ∧
    cachedSafeRead (fun _ => ReadOutcome.fileNotFound)
        ((cachedSafeRead (fun _ => ReadOutcome.fileNotFound) ⟨[]⟩ (some "missing.csv")).2)
        (some "missing.csv") =
      (none, (cachedSafeRead (fun _ => ReadOutcome.fileNotFound) ⟨[]⟩
        (some "missing.csv")).2) :=
  safe_read_failure_cached (fun _ => ReadOutcome.fileNotFound) ⟨[]⟩ (some "missing.csv")
    (fun _ _ => Or.inr rfl) rfl

/-- C8: `Config.__new__` is a singleton per project name — two
constructions with the same name return the identical cached object —
and the cache is populated lazily and never loses or changes an
existing entry. -/
theorem config_singleton_per_project (st : ConfigCache) (p : String) :
    (configNew st p).1 = (configNew (configNew st p).2 p).1 ∧
    (cacheLookup st p = none →
      cacheLookup (configNew st p).2 p = some (configNew st p).1) ∧
    (∀ q oid, cacheLookup st q = some oid →
      cacheLookup (configNew st p).2 q = some oid) := by
  rcases hfind : st.entries.find? (fun e => e.1 == p) with _ | e
  · -- not cached yet: fresh id appended
    have hfind2 : (st.entries ++ [(p, st.nextId)]).find? (fun e => e.1 == p)
        = some (p, st.nextId) := by
      rw [List.find?_append, hfind]
      simp
    refine ⟨?_, ?_, ?_⟩
    · simp [configNew, hfind, hfind2]
    · intro _
      simp [configNew, cacheLookup, hfind, hfind2]
    · intro q oid hq
      simp only [cacheLookup, configNew, hfind] at hq ⊢
      rcases hq2 : st.entries.find? (fun e => e.1 == q) with _ | e2
      · rw [hq2] at hq; simp at hq
      · rw [hq2] at hq
        rw [List.find?_append, hq2]
        simpa using hq
  · -- cached: same object returned, state entries unchanged
    refine ⟨?_, ?_, ?_⟩
    · simp [configNew, hfind]
    · intro hnone
      simp [cacheLookup, hfind] at hnone
    · intro q oid hq
      simp only [cacheLookup, configNew, hfind] at hq ⊢
      exact hq

/-- Witness for C8. -/
theorem config_singleton_per_project_witness :
    (configNew (⟨[], 0⟩ : ConfigCache) "rev").1 =
      (configNew (configNew (⟨[], 0⟩ : ConfigCache) "rev").2 "rev").1 ∧
    cacheLookup (configNew (⟨[], 0⟩ : ConfigCache) "rev").2 "rev" =
      some (configNew (⟨[], 0⟩ : ConfigCache) "rev").1 ∧
    cacheLookup (configNew (⟨[("a", 7)], 8⟩ : ConfigCache) "rev").2 "a" = some 7 :=
  ⟨(config_singleton_per_project ⟨[], 0⟩ "rev").1,
    (config_singleton_per_project ⟨[], 0⟩ "rev").2.1 rfl,
    (config_singleton_per_project ⟨[("a", 7)], 8⟩ "rev").2.2 "a" 7 (by decide)⟩

theorem list_getD_set_self :
    ∀ (l : List Df) (r : Nat) (d : Df), r < l.length →
      (l.set r d).getD r ⟨[]⟩ = d
  | [], r, d, h => absurd h (by simp)
  | x :: xs, 0, d, _ => rfl
  | x :: xs, n + 1, d, h => list_getD_set_self xs n d (by simpa using h)

theorem Heap.get_set (h : Heap) (r : Nat) (d : Df) (hr : r < h.dfs.length) :
    (h.set r d).get r = d :=
  list_getD_set_self h.dfs r d hr

theorem find?_map_replace :
    ∀ (l : List (String × ColData)) (name : String) (c : ColData),
      l.any (fun kv => kv.1 == name) = true →
      (l.map (fun kv => if kv.1 == name then (name, c) else kv)).find?
          (fun kv => kv.1 == name) = some (name, c)
  | [], _, _, h => by simp at h
  | kv :: rest, name, c, h => by
    by_cases hk : (kv.1 == name) = true
    · rw [List.map_cons, if_pos hk]
      rw [List.find?_cons_of_pos _ (by simp)]
    · have hrest : rest.any (fun kv => kv.1 == name) = true := by
        rw [List.any_cons] at h
        simpa [hk] using h
      rw [List.map_cons, if_neg hk]
      rw [List.find?_cons]
      rw [Bool.not_eq_true] at hk
      simp only [hk]
      exact find?_map_replace rest name c hrest

theorem getCol_setCol (d : Df) (name : String) (c : ColData) :
    (d.setCol name c).getCol name = some c := by
  unfold Df.setCol
  split
  · rename_i hhas
    unfold Df.getCol
    simp only
    rw [find?_map_replace d.cols name c hhas]
    rfl
  · rename_i hhas
    unfold Df.getCol
    simp only
    rw [List.find?_append]
    have hnone : d.cols.find? (fun kv => kv.1 == name) = none := by
      rw [List.find?_eq_none]
      intro x hx
      intro hpx
      exact hhas (List.any_eq_true.mpr ⟨x, hx, hpx⟩)
    rw [hnone]
    simp

theorem setCol_ne_of_not_hasCol (d : Df) (name : String) (c : ColData)
    (h : d.hasCol name = false) : d.setCol name c ≠ d := by
  unfold Df.setCol
  rw [if_neg (by simp [h])]
  intro heq
  have hlen := congrArg (fun x => x.cols.length) heq
  simp at hlen

/-- C9: in the non-bespoke path `Map.__init__` stores the caller's
dataframe reference, and evaluating `Map.figure` mutates that object
in place: afterwards the caller's dataframe carries a `"text"` column
holding the hover text, and — whenever it had no `"text"` column
before — it is not left unchanged. -/
theorem figure_mutates_caller_df
    (trigger : String) (heap : Heap) (r : Nat) (unpacked : Df)
    (m : MapObj) (txt : List String)
    (hnb : (pyIn "clickData" trigger && (heap.get r).hasCol "turbine_y_coords") = false)
    (href : m.dfRef = r)
    (hr : r < heap.dfs.length)
    (htxt : m.hover_text (heap.get r) = some txt) :
    mapInitRef trigger heap r unpacked = (r, heap) ∧
    m.figureEffect heap =
      some (heap.set r ((heap.get r).setCol "text" (ColData.strs txt))) ∧
    (heap.set r ((heap.get r).setCol "text" (ColData.strs txt))).get r
        = (heap.get r).setCol "text" (ColData.strs txt) ∧
    ((heap.get r).setCol "text" (ColData.strs txt)).getCol "text"
        = some (ColData.strs txt) ∧
    ((heap.get r).hasCol "text" = false →
      (heap.set r ((heap.get r).setCol "text" (ColData.strs txt))).get r ≠ heap.get r) := by
  refine ⟨?_, ?_, ?_, ?_, ?_⟩
  · simp [mapInitRef, hnb]
  · simp [MapObj.figureEffect, href, htxt]
  · exact Heap.get_set heap r _ hr
  · exact getCol_setCol _ "text" _
  · intro hno
    rw [Heap.get_set heap r _ hr]
    exact setCol_ne_of_not_hasCol _ "text" _ hno

/-- A one-row dataframe with categorical data, for the C9 witness. -/
def hoverDemoDf : Df :=
  ⟨[("county", ColData.strs ["Kent"]), ("state", ColData.strs ["WA"]),
    ("val", ColData.strs ["low"])]⟩

/-- Witness for C9. -/
theorem figure_mutates_caller_df_witness :
    MapObj.figureEffect ⟨0, "category", "val", none⟩ ⟨[hoverDemoDf]⟩ =
      some ((⟨[hoverDemoDf]⟩ : Heap).set 0 (((⟨[hoverDemoDf]⟩ : Heap).get 0).setCol "text"
        (ColData.strs ["Kent County, WA: <br>   low category"]))) ∧
    (((⟨[hoverDemoDf]⟩ : Heap).get 0).setCol "text"
        (ColData.strs ["Kent County, WA: <br>   low category"])).getCol "text"
      = some (ColData.strs ["Kent County, WA: <br>   low category"]) ∧
    ((⟨[hoverDemoDf]⟩ : Heap).set 0 (((⟨[hoverDemoDf]⟩ : Heap).get 0).setCol "text"
        (ColData.strs ["Kent County, WA: <br>   low category"]))).get 0
      ≠ (⟨[hoverDemoDf]⟩ : Heap).get 0 := by
  have h := figure_mutates_caller_df "mapClick" ⟨[hoverDemoDf]⟩ 0 ⟨[]⟩
    ⟨0, "category", "val", none⟩ ["Kent County, WA: <br>   low category"]
    (by decide) rfl (by decide) (by decide)
  exact ⟨h.2.1, h.2.2.2.1, h.2.2.2.2 (by decide)⟩

end ReView
